import Mathlib

/-
  Verification of the `AddressInput` resolution controller from
  `src/ui/components/Input/index.tsx` of the unicash-wallet extension.

  The component is embedded shallowly: React `useState` fields become the
  fields of `AddrState`; the synchronous keystroke handler
  `handleInputAddress` and the asynchronous resolver-completion callback
  (the `.then`/`.catch`/`.finally` chain of `wallet.queryDomainInfo`)
  become pure functions on `AddrState`.  Asynchrony is modelled by a small
  event system (`sysStep`): a keystroke may enqueue a pending resolver
  request, and a completion event applies the completion callback for one
  pending request, in any order — exactly the interleavings the browser
  event loop allows.

  Collaborators that live outside `src/` are modelled from the spec and
  marked as such: the name parser `getSatsName`, the policy constants
  `SUPPORTED_DOMAINS` and `SAFE_DOMAIN_CONFIRMATION`, and the external
  chain-specific validator `bitcore.Address.isValid` (kept as an explicit
  function parameter `isValid` of the keystroke handler; a sample instance
  is used for concrete runs).
-/

namespace UnicashInput

/-- A resolution record returned by `wallet.queryDomainInfo`
(`Inscription` in `src`).  Only the two fields the controller reads are
modelled: `address` (the owner address, possibly absent — the code guards
it with `inscription.address || ''`) and `utxoConfirmation`. -/
structure Inscription where
  address : Option String
  utxoConfirmation : Nat
  deriving DecidableEq, Repr

/-- Result of the Name Syntax Parser: the `label.suffix` split. -/
structure SatsName where
  label : String
  suffix : String
  deriving DecidableEq, Repr

/-- The React state of `AddressInput`: one field per `useState` hook of
the component (lines 139-158 of `src/ui/components/Input/index.tsx`). -/
structure AddrState where
  inputVal : String
  validAddress : String
  parseAddress : String
  parseError : String
  formatError : String
  inscription : Option Inscription
  parseName : String
  searching : Bool
  deriving DecidableEq, Repr

/-- The data captured by the closure of a started `queryDomainInfo` call:
the raw (non-lowercased) input text and the parsed suffix.  The wire
argument of the call is `encodeURIComponent inputAddress`; the URL
encoding is external and not inspected by any claim, so it is not
modelled. -/
structure PendingReq where
  inputAddress : String
  suffix : String
  deriving DecidableEq, Repr

/-- Output of one synchronous keystroke step: the new state, the resolver
request started (if any), and the list of arguments passed to the external
Address Syntax Validator `bitcore.Address.isValid` during the step. -/
structure StepOut where
  state : AddrState
  started : Option PendingReq
  validatorCalled : List String
  deriving DecidableEq, Repr

/-- The argument record passed to the `onAddressInputChange` callback. -/
structure CallbackArg where
  address : String
  domain : String
  inscription : Option Inscription
  deriving DecidableEq, Repr

/-- Modelled from the spec: `SUPPORTED_DOMAINS`, imported by `src` from
`@/shared/constant` which is not under `src/`.  The spec calls it
`SUPPORTED_SUFFIXES`, "externally supplied policy constant"; the input
placeholder in `src` names `sats` and `unicash`, and Scenario B fixes
`sats` as supported.  The claims depend only on membership tests, never on
the exact contents. -/
def SUPPORTED_DOMAINS : List String := ["sats", "unicash"]

/-- Modelled from the spec: `SAFE_DOMAIN_CONFIRMATION`, imported by `src`
from `@/shared/constant` which is not under `src/`.  Scenario C of the
spec fixes `SAFE_CONFIRMATIONS = 3`, matching the `/3` hardcoded in the
unconfirmed-domain message of `src`. -/
def SAFE_DOMAIN_CONFIRMATION : Nat := 3

/-- Split a character list at `.` separators, the shape test of the Name
Syntax Parser (structural recursion, so that concrete runs evaluate). -/
def splitDots : List Char → List String
  | [] => [""]
  | c :: cs =>
    match splitDots cs with
    | [] => [""]
    | p :: ps => if c = '.' then "" :: p :: ps else (⟨c :: p.data⟩ : String) :: ps

/-- JS `String.prototype.toLowerCase`, applied by `handleInputAddress` to
build `teststr`; per-character lowering. -/
def toLowerStr (s : String) : String := ⟨s.data.map Char.toLower⟩

/-- Modelled from the spec: `getSatsName`, imported by `src` from
`@/shared/lib/satsname-utils` which is not under `src/`.  Per spec §4.1
the Name Syntax Parser maps a lower-cased string to `some ⟨label, suffix⟩`
when it has the shape `label.suffix` (split at the last dot, both parts
nonempty — Scenario D shows any suffix shape is recognized, supported or
not), and to `none` otherwise; it never throws, including on the empty
string or a string with no separator. -/
def getSatsName (s : String) : Option SatsName :=
  match (splitDots s.data).reverse with
  | [] => none
  | [_] => none
  | suffix :: rest =>
    let label := String.intercalate "." rest.reverse
    if label = "" || suffix = "" then none else some ⟨label, suffix⟩

/-- Modelled from the spec: `bitcore.Address.isValid`, the external
chain-specific Address Syntax Validator (spec §4.2: "returns true iff the
string is a syntactically valid address", rules out of scope to
reimplement).  The general theorems take the validator as a parameter;
this sample instance fixes only what the spec determines — one
Scenario-A-style valid raw address, everything else (in particular the
empty string) invalid — and is used for concrete runs. -/
def isValidAddressModel (s : String) : Bool := s == "bc1qvalidaddr"

/-- The suffix-list string built by the `for` loop of
`handleInputAddress` (lines 221-232): `.a` for one name, `.a and .b` for
two, `.a, .b and .c` for three, joining with `", "` except `" and "`
before the last. -/
def suffixListStr (domains : List String) : String :=
  let names := domains.map (fun v => "." ++ v)
  (List.range names.length).foldl
    (fun str i =>
      let sep := if i == 0 then "" else if i < names.length - 1 then ", " else " and "
      str ++ sep ++ names.getD i "") ""

/-- The unconfirmed-domain message of line 203 of `src` (note the
hardcoded `/3` denominator). -/
def unconfirmedMsg (c : Nat) : String :=
  "This domain has been transferred or inscribed recently. Please wait for block confirmations (" ++ toString c ++ "/3)."

/-- `resetState` (lines 160-179 of `src`): conditionally clears
`parseError`, `parseAddress`, `formatError`, `validAddress`, `inscription`
(JS truthiness: a string is truthy iff nonempty, the inscription iff
present) and unconditionally clears `parseName`.  It does not touch
`inputVal` or `searching`. -/
def resetState (s : AddrState) : AddrState :=
  let s1 := if s.parseError ≠ "" then { s with parseError := "" } else s
  let s2 := if s1.parseAddress ≠ "" then { s1 with parseAddress := "" } else s1
  let s3 := if s2.formatError ≠ "" then { s2 with formatError := "" } else s2
  let s4 := if s3.validAddress ≠ "" then { s3 with validAddress := "" } else s3
  let s5 := if s4.inscription.isSome then { s4 with inscription := none } else s4
  { s5 with parseName := "" }

/-- The synchronous part of `handleInputAddress` (lines 181-244 of
`src`): store the raw input, reset derived state, then branch on
`getSatsName` of the lower-cased text.  A supported-domain match sets
`searching` and starts the resolver call (returned as `started`); an
unsupported domain-like suffix sets the suffix-list format error; a
non-domain input is passed to the external validator `isValid`
(`bitcore.Address.isValid`), recorded in `validatorCalled`. -/
def handleInputAddress (isValid : String → Bool) (s : AddrState)
    (inputAddress : String) : StepOut :=
  let s := { s with inputVal := inputAddress }
  let s := resetState s
  let teststr := toLowerStr inputAddress
  match getSatsName teststr with
  | some satsname =>
    if SUPPORTED_DOMAINS.contains satsname.suffix then
      { state := { s with searching := true },
        started := some { inputAddress := inputAddress, suffix := satsname.suffix },
        validatorCalled := [] }
    else
      { state := { s with formatError :=
          "Currently only " ++ suffixListStr SUPPORTED_DOMAINS ++ " are supported." },
        started := none,
        validatorCalled := [] }
  | none =>
    if isValid inputAddress then
      { state := { s with validAddress := inputAddress },
        started := none,
        validatorCalled := [inputAddress] }
    else
      { state := { s with formatError := "Recipient address is invalid" },
        started := none,
        validatorCalled := [inputAddress] }

/-- The resolver-completion callback: the `.then` / `.catch` / `.finally`
chain attached to `wallet.queryDomainInfo` in `handleInputAddress` (lines
192-219 of `src`).  `req` carries the closure variables (`inputAddress`,
`satsname.suffix`); `res` is the promise outcome: `.error msg` for a
rejected promise, `.ok none` for a null record, `.ok (some ins)` for a
found record.  `.finally` clears `searching` on every path.  The code
contains no generation or staleness check: the callback is applied to
whatever the live state is. -/
def handleCompletion (req : PendingReq) (res : Except String (Option Inscription))
    (s : AddrState) : AddrState :=
  match res with
  | .error msg =>
    let s := { s with formatError := msg ++ " for " ++ req.inputAddress }
    { s with searching := false }
  | .ok r =>
    let s := resetState s
    match r with
    | none =>
      { s with parseError := req.inputAddress ++ " does not exist",
               searching := false }
    | some ins =>
      let s := { s with inscription := some ins }
      if ins.utxoConfirmation < SAFE_DOMAIN_CONFIRMATION then
        { s with parseError := unconfirmedMsg ins.utxoConfirmation,
                 searching := false }
      else
        let address := ins.address.getD ""
        { s with parseAddress := address,
                 validAddress := address,
                 parseName := req.suffix,
                 searching := false }

/-- The argument built for the `onAddressInputChange` callback by the
`useEffect` on `validAddress` (lines 150-156 of `src`):
`{ address: validAddress, domain: parseAddress ? inputVal : '', inscription }`. -/
def emitArg (s : AddrState) : CallbackArg :=
  { address := s.validAddress,
    domain := if s.parseAddress ≠ "" then s.inputVal else "",
    inscription := s.inscription }

/-- The initial state of the hooks (lines 139-158 of `src`), from the
`addressInputData` prop `{ address, domain }`. -/
def initState (address domain : String) : AddrState :=
  { inputVal := if domain ≠ "" then domain else address,
    validAddress := address,
    parseAddress := if domain ≠ "" then address else "",
    parseError := "",
    formatError := "",
    inscription := none,
    parseName := "",
    searching := false }

/-- Whole-system state for interleaving keystrokes with resolver
completions: the component state plus the multiset of in-flight
`queryDomainInfo` calls. -/
structure SysState where
  ui : AddrState
  pending : List PendingReq
  deriving DecidableEq, Repr

/-- An event of the browser event loop: a keystroke on the input, or the
settlement of one in-flight resolver promise. -/
inductive SysEvent where
  | keystroke (input : String)
  | complete (req : PendingReq) (res : Except String (Option Inscription))
  deriving Repr

/-- One event-loop step.  A completion event only fires for a request
that is actually in flight; it applies the completion callback to the
live state — faithfully to the code, which performs no generation
comparison before mutating. -/
def sysStep (isValid : String → Bool) (σ : SysState) : SysEvent → SysState
  | .keystroke input =>
    let out := handleInputAddress isValid σ.ui input
    { ui := out.state, pending := σ.pending ++ out.started.toList }
  | .complete req res =>
    if σ.pending.contains req then
      { ui := handleCompletion req res σ.ui, pending := σ.pending.erase req }
    else σ

/-- Run a list of event-loop events from a starting system state. -/
def runEvents (isValid : String → Bool) (σ : SysState) (es : List SysEvent) : SysState :=
  es.foldl (sysStep isValid) σ

/-- The conditional clears of `resetState` are functionally the
unconditional clears: a falsy field is already at its neutral value. -/
theorem resetState_eq (s : AddrState) :
    resetState s =
      { s with parseError := "", parseAddress := "", formatError := "",
               validAddress := "", inscription := none, parseName := "" } := by
  obtain ⟨iv, va, pa, pe, fe, ins, pn, se⟩ := s
  simp only [resetState]
  repeat' split <;> simp_all

/-- The unconfirmed-domain message is never the empty string. -/
theorem unconfirmedMsg_ne_empty (c : Nat) : unconfirmedMsg c ≠ "" := by
  intro h
  have h2 : (unconfirmedMsg c).data = ([] : List Char) := congrArg String.data h
  simp [unconfirmedMsg, String.append] at h2

/-- A keystroke stores the raw input text in `inputVal`, on every branch. -/
theorem handleInputAddress_inputVal (isValid : String → Bool) (s : AddrState)
    (input : String) : (handleInputAddress isValid s input).state.inputVal = input := by
  unfold handleInputAddress
  simp only [resetState_eq]
  split <;> split <;> rfl

/-- Characterization of the completion callback on a found record: reset,
store the record, then branch on the Confirmation Gate. -/
theorem handleCompletion_found (req : PendingReq) (s : AddrState) (ins : Inscription) :
    handleCompletion req (.ok (some ins)) s =
      if ins.utxoConfirmation < SAFE_DOMAIN_CONFIRMATION then
        { s with parseError := unconfirmedMsg ins.utxoConfirmation, parseAddress := "",
                 formatError := "", validAddress := "", inscription := some ins,
                 parseName := "", searching := false }
      else
        { s with parseError := "", parseAddress := ins.address.getD "",
                 formatError := "", validAddress := ins.address.getD "",
                 inscription := some ins, parseName := req.suffix, searching := false } := by
  by_cases h : ins.utxoConfirmation < SAFE_DOMAIN_CONFIRMATION
  · rw [if_pos h]
    simp only [handleCompletion, resetState_eq, if_pos h]
  · rw [if_neg h]
    simp only [handleCompletion, resetState_eq, if_neg h]

/-- Claim C3: for every resolution record, the Confirmation Gate (the
`utxoConfirmation < SAFE_DOMAIN_CONFIRMATION` test of the completion
callback) yields trusted — no unconfirmed-domain `parseError` — if and
only if `confirmations ≥ SAFE_DOMAIN_CONFIRMATION`; at the boundary,
`SAFE_DOMAIN_CONFIRMATION - 1 = 2` confirmations yield the untrusted
message, which reports progress as `(2/3)`, and `SAFE_DOMAIN_CONFIRMATION
= 3` confirmations yield the trusted outcome. -/
theorem confirmation_gate_boundary (req : PendingReq) (s : AddrState) (ins : Inscription) :
    ((handleCompletion req (.ok (some ins)) s).parseError = "" ↔
      SAFE_DOMAIN_CONFIRMATION ≤ ins.utxoConfirmation)
    ∧ (ins.utxoConfirmation = SAFE_DOMAIN_CONFIRMATION - 1 →
        (handleCompletion req (.ok (some ins)) s).parseError =
          unconfirmedMsg (SAFE_DOMAIN_CONFIRMATION - 1)
        ∧ ∃ a b, unconfirmedMsg (SAFE_DOMAIN_CONFIRMATION - 1) = a ++ "(2/3)" ++ b)
    ∧ (ins.utxoConfirmation = SAFE_DOMAIN_CONFIRMATION →
        (handleCompletion req (.ok (some ins)) s).parseError = ""
        ∧ (handleCompletion req (.ok (some ins)) s).parseName = req.suffix) := by
  rw [handleCompletion_found]
  by_cases h : ins.utxoConfirmation < SAFE_DOMAIN_CONFIRMATION
  · rw [if_pos h]
    refine ⟨?_, ?_, ?_⟩
    · exact ⟨fun he => absurd he (unconfirmedMsg_ne_empty _),
             fun hn => absurd hn (Nat.not_le.mpr h)⟩
    · intro hc
      refine ⟨by rw [hc], ?_⟩
      exact ⟨"This domain has been transferred or inscribed recently. Please wait for block confirmations ",
             ".", rfl⟩
    · intro hc
      exact absurd h (by rw [hc]; exact Nat.lt_irrefl _)
  · rw [if_neg h]
    refine ⟨?_, ?_, ?_⟩
    · exact ⟨fun _ => Nat.not_lt.mp h, fun _ => rfl⟩
    · intro hc
      exact absurd (by rw [hc]; decide) h
    · exact fun _ => ⟨rfl, rfl⟩

/-- Claim C3 witness: the gate at the boundary for a concrete record and
request. -/
theorem confirmation_gate_boundary_witness :
    ((handleCompletion ⟨"alice.sats", "sats"⟩
        (.ok (some ⟨some "bc1qabc", 2⟩)) (initState "" "")).parseError =
      unconfirmedMsg 2
     ∧ ∃ a b, unconfirmedMsg 2 = a ++ "(2/3)" ++ b)
    ∧ (handleCompletion ⟨"alice.sats", "sats"⟩
        (.ok (some ⟨some "bc1qabc", 3⟩)) (initState "" "")).parseError = "" := by
  refine ⟨?_, ?_⟩
  · exact (confirmation_gate_boundary ⟨"alice.sats", "sats"⟩ (initState "" "")
      ⟨some "bc1qabc", 2⟩).2.1 rfl
  · exact ((confirmation_gate_boundary ⟨"alice.sats", "sats"⟩ (initState "" "")
      ⟨some "bc1qabc", 3⟩).2.2 rfl).1

/-- Claim C4: a successful lookup whose record is below the confirmation
threshold never populates the resolved target: `validAddress` and
`parseAddress` stay empty exactly as reset leaves them, while the record
itself is stored in `inscription` for display, with the waiting message
in `parseError`. -/
theorem untrusted_record_keeps_target_empty (req : PendingReq) (s : AddrState)
    (ins : Inscription) (h : ins.utxoConfirmation < SAFE_DOMAIN_CONFIRMATION) :
    (handleCompletion req (.ok (some ins)) s).validAddress = ""
    ∧ (handleCompletion req (.ok (some ins)) s).parseAddress = ""
    ∧ (handleCompletion req (.ok (some ins)) s).inscription = some ins
    ∧ (handleCompletion req (.ok (some ins)) s).parseError =
        unconfirmedMsg ins.utxoConfirmation := by
  rw [handleCompletion_found, if_pos h]
  exact ⟨rfl, rfl, rfl, rfl⟩

/-- Claim C4 witness: Scenario C — `alice.sats` resolves with one
confirmation; the target stays empty, the record is retained. -/
theorem untrusted_record_keeps_target_empty_witness :
    (handleCompletion ⟨"alice.sats", "sats"⟩
        (.ok (some ⟨some "bc1qabc", 1⟩)) (initState "" "")).validAddress = ""
    ∧ (handleCompletion ⟨"alice.sats", "sats"⟩
        (.ok (some ⟨some "bc1qabc", 1⟩)) (initState "" "")).inscription =
      some ⟨some "bc1qabc", 1⟩ := by
  have h := untrusted_record_keeps_target_empty ⟨"alice.sats", "sats"⟩
    (initState "" "") ⟨some "bc1qabc", 1⟩ (by decide)
  exact ⟨h.1, h.2.2.1⟩

/-- Claim C8: on completion, a null record sets `parseError` to the
original input text followed by `" does not exist"`, and a rejected
promise sets `formatError` to the failure message concatenated (via
`" for "`) with the offending input; both are plain state updates of the
total function `handleCompletion` — nothing escapes the controller — and
both clear the `searching` flag in `.finally`. -/
theorem completion_error_states (req : PendingReq) (s : AddrState) (msg : String) :
    (handleCompletion req (.ok none) s).parseError =
      req.inputAddress ++ " does not exist"
    ∧ (handleCompletion req (.ok none) s).searching = false
    ∧ (handleCompletion req (.error msg) s).formatError =
        msg ++ " for " ++ req.inputAddress
    ∧ (handleCompletion req (.error msg) s).searching = false := by
  exact ⟨rfl, rfl, rfl, rfl⟩

/-- Claim C10: the address stored for the callback by a trusted
resolution is `inscription.address || ''`: always a string, with a
missing or empty owner address coerced to the empty string. -/
theorem trusted_missing_owner_coerced (req : PendingReq) (s : AddrState)
    (ins : Inscription) (h : SAFE_DOMAIN_CONFIRMATION ≤ ins.utxoConfirmation) :
    (emitArg (handleCompletion req (.ok (some ins)) s)).address = ins.address.getD ""
    ∧ (ins.address = none →
        (emitArg (handleCompletion req (.ok (some ins)) s)).address = "")
    ∧ (ins.address = some "" →
        (emitArg (handleCompletion req (.ok (some ins)) s)).address = "") := by
  rw [handleCompletion_found, if_neg (Nat.not_lt.mpr h)]
  refine ⟨rfl, ?_, ?_⟩
  · intro ha
    show ins.address.getD "" = ""
    rw [ha]
    rfl
  · intro ha
    show ins.address.getD "" = ""
    rw [ha]
    rfl

/-- Claim C10 witness: a trusted record with no owner address yields the
empty-string target. -/
theorem trusted_missing_owner_coerced_witness :
    (emitArg (handleCompletion ⟨"alice.sats", "sats"⟩
        (.ok (some ⟨none, 5⟩)) (initState "" ""))).address = "" := by
  exact (trusted_missing_owner_coerced ⟨"alice.sats", "sats"⟩ (initState "" "")
    ⟨none, 5⟩ (by decide)).2.1 rfl

/-- Claim C6: an input whose lower-casing parses as `label.suffix` with a
supported suffix never reaches `bitcore.Address.isValid` — the domain
branch runs instead; and on no keystroke are both the validator and the
resolver used (the branches are mutually exclusive). -/
theorem supported_domain_skips_validator (isValid : String → Bool) (s : AddrState)
    (input : String) (p : SatsName)
    (h1 : getSatsName (toLowerStr input) = some p)
    (h2 : SUPPORTED_DOMAINS.contains p.suffix = true) :
    (handleInputAddress isValid s input).validatorCalled = []
    ∧ ∀ t : String, (handleInputAddress isValid s t).validatorCalled = []
        ∨ (handleInputAddress isValid s t).started = none := by
  constructor
  · unfold handleInputAddress
    simp only [h1]
    rw [if_pos h2]
  · intro t
    unfold handleInputAddress
    cases hg : getSatsName (toLowerStr t) with
    | none => exact Or.inr (by simp only [hg]; split <;> rfl)
    | some q => exact Or.inl (by simp only [hg]; split <;> rfl)

/-- Claim C6 witness: `alice.sats` (supported suffix `sats`) skips the
validator. -/
theorem supported_domain_skips_validator_witness :
    (handleInputAddress isValidAddressModel (initState "" "") "alice.sats").validatorCalled
      = [] := by
  exact (supported_domain_skips_validator isValidAddressModel (initState "" "")
    "alice.sats" ⟨"alice", "sats"⟩ (by decide) (by decide)).1

/-- Claim C7: an input that parses as a domain name with an unsupported
suffix gets the format error listing the supported suffixes — joined by
the loop with commas and a final `and`, e.g. `.a, .b and .c` for three —
and starts no resolver call. -/
theorem unsupported_suffix_format_error (isValid : String → Bool) (s : AddrState)
    (input : String) (p : SatsName)
    (h1 : getSatsName (toLowerStr input) = some p)
    (h2 : SUPPORTED_DOMAINS.contains p.suffix = false) :
    (handleInputAddress isValid s input).state.formatError =
      "Currently only " ++ suffixListStr SUPPORTED_DOMAINS ++ " are supported."
    ∧ (handleInputAddress isValid s input).started = none
    ∧ suffixListStr ["a", "b", "c"] = ".a, .b and .c"
    ∧ suffixListStr SUPPORTED_DOMAINS = ".sats and .unicash" := by
  have hni : ¬(SUPPORTED_DOMAINS.contains p.suffix = true) := by
    rw [h2]; exact Bool.false_ne_true
  refine ⟨?_, ?_, by decide, by decide⟩
  · unfold handleInputAddress
    simp only [h1]
    rw [if_neg hni]
  · unfold handleInputAddress
    simp only [h1]
    rw [if_neg hni]

/-- Claim C7 witness: Scenario D — `alice.unknown` gets the suffix-list
format error and no resolver call. -/
theorem unsupported_suffix_format_error_witness :
    (handleInputAddress isValidAddressModel (initState "" "") "alice.unknown").state.formatError
      = "Currently only .sats and .unicash are supported."
    ∧ (handleInputAddress isValidAddressModel (initState "" "") "alice.unknown").started
      = none := by
  have h := unsupported_suffix_format_error isValidAddressModel (initState "" "")
    "alice.unknown" ⟨"alice", "unknown"⟩ (by decide) (by decide)
  exact ⟨h.1, h.2.1⟩

/-- Claim C9 (amended): every keystroke synchronously clears
`parseError`, `parseAddress`, `inscription` and `parseName`; when it
starts a lookup, `formatError` and `validAddress` are also clear at that
point and `searching` has been set.  The `searching` flag however is
never reset by the keystroke itself: it keeps its previous value unless
a new lookup starts. -/
theorem keystroke_resets_derived_state (isValid : String → Bool) (s : AddrState)
    (input : String) :
    (handleInputAddress isValid s input).state.parseError = ""
    ∧ (handleInputAddress isValid s input).state.parseAddress = ""
    ∧ (handleInputAddress isValid s input).state.inscription = none
    ∧ (handleInputAddress isValid s input).state.parseName = ""
    ∧ ((handleInputAddress isValid s input).started.isSome = true →
        (handleInputAddress isValid s input).state.formatError = ""
        ∧ (handleInputAddress isValid s input).state.validAddress = ""
        ∧ (handleInputAddress isValid s input).state.searching = true)
    ∧ (handleInputAddress isValid s input).state.searching =
        (s.searching || (handleInputAddress isValid s input).started.isSome) := by
  unfold handleInputAddress
  simp only [resetState_eq]
  split
  · split
    · exact ⟨rfl, rfl, rfl, rfl, fun _ => ⟨rfl, rfl, rfl⟩, by simp⟩
    · refine ⟨rfl, rfl, rfl, rfl, ?_, by simp⟩
      intro h
      simp at h
  · split
    · refine ⟨rfl, rfl, rfl, rfl, ?_, by simp⟩
      intro h
      simp at h
    · refine ⟨rfl, rfl, rfl, rfl, ?_, by simp⟩
      intro h
      simp at h

/-- Claim C9 witness: the `alice.sats` keystroke from the initial state,
which starts a lookup. -/
theorem keystroke_resets_derived_state_witness :
    (handleInputAddress isValidAddressModel (initState "" "") "alice.sats").state.parseError = ""
    ∧ (handleInputAddress isValidAddressModel (initState "" "") "alice.sats").state.validAddress = ""
    ∧ (handleInputAddress isValidAddressModel (initState "" "") "alice.sats").state.searching = true := by
  have h := keystroke_resets_derived_state isValidAddressModel (initState "" "") "alice.sats"
  exact ⟨h.1, (h.2.2.2.2.1 (by decide)).2.1, (h.2.2.2.2.1 (by decide)).2.2⟩

/-- Claim C9 counterexample: a keystroke does not reset `searching`.
After `alice.sats` starts a lookup (`searching = true`), typing the valid
raw address `bc1qvalidaddr` starts no async work, yet leaves
`searching = true` — the claimed reset of all UIState flags to neutral
before async work does not happen for `searching`. -/
theorem keystroke_does_not_reset_searching :
    (handleInputAddress isValidAddressModel
        (handleInputAddress isValidAddressModel (initState "" "") "alice.sats").state
        "bc1qvalidaddr").state.searching = true
    ∧ (handleInputAddress isValidAddressModel
        (handleInputAddress isValidAddressModel (initState "" "") "alice.sats").state
        "bc1qvalidaddr").started = none
    ∧ (handleInputAddress isValidAddressModel
        (handleInputAddress isValidAddressModel (initState "" "") "alice.sats").state
        "bc1qvalidaddr").state.validAddress = "bc1qvalidaddr" := by
  decide

/-- Claim C2 (amended): on the empty keystroke the controller clears
`parseError`, the resolved target, the record and `parseName`, and starts
no lookup; but because the empty string fails `bitcore.Address.isValid`,
`formatError` is set to `"Recipient address is invalid"` rather than left
empty. -/
theorem empty_input_resets_but_flags_invalid (isValid : String → Bool) (s : AddrState)
    (h : isValid "" = false) :
    (handleInputAddress isValid s "").state.parseError = ""
    ∧ (handleInputAddress isValid s "").state.parseAddress = ""
    ∧ (handleInputAddress isValid s "").state.validAddress = ""
    ∧ (handleInputAddress isValid s "").state.inscription = none
    ∧ (handleInputAddress isValid s "").state.parseName = ""
    ∧ (handleInputAddress isValid s "").started = none
    ∧ (handleInputAddress isValid s "").state.formatError =
        "Recipient address is invalid" := by
  have hg : getSatsName (toLowerStr "") = none := rfl
  have hni : ¬(isValid "" = true) := by rw [h]; exact Bool.false_ne_true
  unfold handleInputAddress
  simp only [resetState_eq, hg]
  rw [if_neg hni]
  exact ⟨rfl, rfl, rfl, rfl, rfl, rfl, rfl⟩

/-- Claim C2 amended-theorem witness: the sample validator rejects the
empty string, so the empty keystroke clears state and flags the format
error. -/
theorem empty_input_resets_but_flags_invalid_witness :
    (handleInputAddress isValidAddressModel (initState "" "") "").state.parseError = ""
    ∧ (handleInputAddress isValidAddressModel (initState "" "") "").state.formatError =
        "Recipient address is invalid" := by
  have h := empty_input_resets_but_flags_invalid isValidAddressModel (initState "" "")
    (by decide)
  exact ⟨h.1, h.2.2.2.2.2.2⟩

/-- Claim C2 counterexample: after the empty keystroke `formatError` is
`"Recipient address is invalid"`, not empty — the claim that no error is
shown fails (the empty string is not a valid address, so the raw-address
branch flags it). -/
theorem empty_input_shows_error :
    (handleInputAddress isValidAddressModel (initState "" "") "").state.formatError =
      "Recipient address is invalid"
    ∧ ¬((handleInputAddress isValidAddressModel (initState "" "") "").state.formatError
        = "") := by
  decide

/-- Claim C1: the code has no generation guard, so a stale completion
does mutate state.  Trace: keystroke `alice.sats`, keystroke `bob.sats`
(superseding it), then the first lookup completes with alice's record —
and alice's address lands in `validAddress`/`parseAddress`, the record is
stored, and `searching` is cleared while bob's lookup is still in flight,
even though `inputVal` is already `bob.sats`. -/
theorem stale_completion_overwrites_target :
    (runEvents isValidAddressModel { ui := initState "" "", pending := [] }
        [.keystroke "alice.sats", .keystroke "bob.sats",
         .complete ⟨"alice.sats", "sats"⟩
           (.ok (some ⟨some "bc1qalice", 5⟩))]).ui.validAddress = "bc1qalice"
    ∧ (runEvents isValidAddressModel { ui := initState "" "", pending := [] }
        [.keystroke "alice.sats", .keystroke "bob.sats",
         .complete ⟨"alice.sats", "sats"⟩
           (.ok (some ⟨some "bc1qalice", 5⟩))]).ui.parseAddress = "bc1qalice"
    ∧ (runEvents isValidAddressModel { ui := initState "" "", pending := [] }
        [.keystroke "alice.sats", .keystroke "bob.sats",
         .complete ⟨"alice.sats", "sats"⟩
           (.ok (some ⟨some "bc1qalice", 5⟩))]).ui.inscription =
        some ⟨some "bc1qalice", 5⟩
    ∧ (runEvents isValidAddressModel { ui := initState "" "", pending := [] }
        [.keystroke "alice.sats", .keystroke "bob.sats",
         .complete ⟨"alice.sats", "sats"⟩
           (.ok (some ⟨some "bc1qalice", 5⟩))]).ui.inputVal = "bob.sats"
    ∧ (runEvents isValidAddressModel { ui := initState "" "", pending := [] }
        [.keystroke "alice.sats", .keystroke "bob.sats",
         .complete ⟨"alice.sats", "sats"⟩
           (.ok (some ⟨some "bc1qalice", 5⟩))]).ui.searching = false
    ∧ (runEvents isValidAddressModel { ui := initState "" "", pending := [] }
        [.keystroke "alice.sats", .keystroke "bob.sats",
         .complete ⟨"alice.sats", "sats"⟩
           (.ok (some ⟨some "bc1qalice", 5⟩))]).pending =
        [⟨"bob.sats", "sats"⟩] := by
  decide

/-- Claim C5 counterexample: a trusted resolution of `alice.sats` hands
the callback `domain = "alice.sats"` (the full typed input, because the
`useEffect` passes `parseAddress ? inputVal : ''`), not the matched
suffix `"sats"` the claim states. -/
theorem callback_domain_is_full_input :
    (handleInputAddress isValidAddressModel (initState "" "") "alice.sats").started =
      some ⟨"alice.sats", "sats"⟩
    ∧ emitArg (handleCompletion ⟨"alice.sats", "sats"⟩
        (.ok (some ⟨some "bc1qabc", 5⟩))
        (handleInputAddress isValidAddressModel (initState "" "") "alice.sats").state) =
      { address := "bc1qabc", domain := "alice.sats",
        inscription := some ⟨some "bc1qabc", 5⟩ }
    ∧ ¬("alice.sats" = "sats") := by
  decide

/-- Claim C5 (amended): on a trusted domain resolution the callback
record has `address` equal to the record's owner address and `domain`
equal to the full raw input string (not the bare suffix), provided the
owner address is nonempty; the matched suffix is kept separately in
`parseName`. -/
theorem trusted_resolution_callback_fields (isValid : String → Bool) (s0 : AddrState)
    (input : String) (req : PendingReq) (ins : Inscription) (a : String)
    (_hstart : (handleInputAddress isValid s0 input).started = some req)
    (haddr : ins.address = some a) (hne : a ≠ "")
    (hconf : SAFE_DOMAIN_CONFIRMATION ≤ ins.utxoConfirmation) :
    emitArg (handleCompletion req (.ok (some ins))
        (handleInputAddress isValid s0 input).state) =
      { address := a, domain := input, inscription := some ins }
    ∧ (handleCompletion req (.ok (some ins))
        (handleInputAddress isValid s0 input).state).parseName = req.suffix := by
  rw [handleCompletion_found, if_neg (Nat.not_lt.mpr hconf)]
  refine ⟨?_, rfl⟩
  simp only [emitArg, handleInputAddress_inputVal, haddr, Option.getD_some]
  rw [if_pos hne]

/-- Claim C5 amended-theorem witness: Scenario B — `alice.sats` resolves
trusted to `bc1qabc`; the callback gets `address = "bc1qabc"` and
`domain = "alice.sats"`. -/
theorem trusted_resolution_callback_fields_witness :
    emitArg (handleCompletion ⟨"alice.sats", "sats"⟩
        (.ok (some ⟨some "bc1qabc", 5⟩))
        (handleInputAddress isValidAddressModel (initState "" "") "alice.sats").state) =
      { address := "bc1qabc", domain := "alice.sats",
        inscription := some ⟨some "bc1qabc", 5⟩ } := by
  exact (trusted_resolution_callback_fields isValidAddressModel (initState "" "")
    "alice.sats" ⟨"alice.sats", "sats"⟩ ⟨some "bc1qabc", 5⟩ "bc1qabc"
    (by decide) rfl (by decide) (by decide)).1

end UnicashInput
